import Mathlib

/-!
# `toolkit::chart_surface` (src/chart_surface.cpp)

A shallow embedding of the surface-chart widget: the accumulated view state
(`redraw_chart`), the axis ranges handed to the renderer (`construct_surface`),
the mouse and wheel handlers, and the slice-value parser (`convert_string`,
`make_slice`).

Conventions of the embedding.

* `float` and `double` values are elements of a linearly ordered field `K`, and
  the operations `+`, `-`, `*`, `/` on them are the exact field operations.
  Two conversions are not exact and are embedded as such: the value passed as
  the `float` argument `dzoom` by the wheel slot is rounded to `float`
  (`float_round`, which sends a small enough value to zero), and
  `boost::lexical_cast<double>` rounds to the nearest `double` and fails beyond
  the `double` range (`double_round`, `DBL_OVERFLOW`).  Infinities and NaN have
  no element of `K`.
* `cos`, `sin`, `exp` of `<cmath>` and the conversion to `float` are supplied
  through a `cmath K` record, so that the definitions stay executable over `ℚ`;
  over `ℝ` the record is `⟨Real.cos, Real.sin, Real.exp, float_round⟩`.
* Reading through the end iterator of an empty array (undefined behaviour) is
  the result `none`.
* A thrown C++ exception is the `Except.error` result.
-/

namespace toolkit

/-- The three `<cmath>` functions the widget calls, and the conversion of a value to
`float` that takes place where the value of `exp` is passed as the `float` argument
`dzoom` (line 191). -/
structure cmath (K : Type) where
  cos : K → K
  sin : K → K
  exp : K → K
  to_float : K → K

/-- Modelled from the spec: the header declaring `position_type` is missing; the
visible area is `{centerX, centerY, width, height}`, built at line 131 in that
argument order and read through the fields named below. -/
structure position_type (K : Type) where
  center_x : K
  center_y : K
  width : K
  height : K

/-- Modelled from the spec: the header declaring `axis_type` is missing; slices
exist for the axes `X` and `Y`, and `make_slice` rejects every other value. -/
inductive axis_type where
  | X
  | Y
  | Z
deriving DecidableEq

/-- The preferences object `toolkit::slice_prefs(axis)`: determined by its axis. -/
structure slice_prefs where
  axis : axis_type
deriving DecidableEq

/-- The request `surface_slice` filled in by `make_slice` (lines 257-261). -/
structure surface_slice (K : Type) where
  surface_id : Nat
  axis : axis_type
  m_prefs : slice_prefs
  slice_value : K

/-- The data source `surface`: the sample arrays and the unique identifier. -/
structure surface (K : Type) where
  m_x : List K
  m_y : List K
  m_z : List K
  uid : Nat

/-- What `construct_surface` passes to the renderer: the view angle, the two
linear scales `(lower, upper)` and the data arrays. -/
structure SurfaceChart (K : Type) where
  view_elevation : K
  view_rotation : K
  x_scale : K × K
  y_scale : K × K
  data_x : List K
  data_y : List K
  data_z : List K

/-- The mutable members of the widget `chart_surface`.  The slice views
`m_x_slice` and `m_y_slice` are the lists of requests handed to their
`add_surface_slice_data`, oldest first. -/
structure chart_surface (K : Type) where
  m_elevation : K
  m_rotation : K
  m_zoom : K
  m_dx : K
  m_dy : K
  m_visible_area : Option (position_type K)
  m_mouse_position : Int × Int
  m_mouse_button_pressed : Bool
  m_chart_viewer : Option (SurfaceChart K)
  m_x_slice : List (surface_slice K)
  m_y_slice : List (surface_slice K)

section rounding
variable {R : Type} [LinearOrderedField R] [FloorRing R]

/-- The integer nearest to `x`; the even one of the two when `x` lies half-way. -/
def round_half_even (x : R) : Int :=
  if x - ⌊x⌋ < 1 / 2 then ⌊x⌋
  else if 1 / 2 < x - ⌊x⌋ then ⌊x⌋ + 1
  else if ⌊x⌋ % 2 = 0 then ⌊x⌋ else ⌊x⌋ + 1

/-- The exponent of the last place of a positive `x` in the binary format with `prec`
significant bits and least exponent `emin`: `x` lies in `[2 ^ log, 2 ^ (log + 1))`, and
below `2 ^ (emin + prec - 1)` the last place stays `2 ^ emin` (subnormal values). -/
def ulp_exponent (prec : Nat) (emin : Int) (x : R) : Int :=
  max (Int.log 2 x - ((prec : Int) - 1)) emin

/-- A positive `x` rounded to the nearest multiple of its last place, ties to even. -/
def binary_round_pos (prec : Nat) (emin : Int) (x : R) : R :=
  (round_half_even (x / 2 ^ ulp_exponent prec emin x) : R) * 2 ^ ulp_exponent prec emin x

/-- The value of `x` in the binary format with `prec` significant bits and least exponent
`emin`, by IEEE 754 round-to-nearest, ties to even; the exponent is not bounded above. -/
def binary_round (prec : Nat) (emin : Int) (x : R) : R :=
  if 0 < x then binary_round_pos prec emin x
  else if x < 0 then -binary_round_pos prec emin (-x)
  else 0

/-- The conversion of a value to `float` (binary32: 24 significant bits, least positive
value `2 ^ (-149)`), for a value within the `float` range. -/
def float_round (x : R) : R := binary_round 24 (-149) x

/-- The conversion of a value to `double` (binary64: 53 significant bits, least positive
value `2 ^ (-1074)`), for a value within the `double` range. -/
def double_round (x : R) : R := binary_round 53 (-1074) x

end rounding

section view
variable {K : Type} [LinearOrderedField K]

/-- The constant `c_mouse_move_sensitivity = 0.01f`. -/
def c_mouse_move_sensitivity : K := 1 / 100

/-- The constant `c_mouse_rotation_sensitivity = 0.1f`. -/
def c_mouse_rotation_sensitivity : K := 1 / 10

/-- The constant `c_scroll_sensitivity = 830.0f`. -/
def c_scroll_sensitivity : K := 830

/-- The state left by the constructor (lines 16-30); `pos` is `QCursor::pos()`. -/
def chart_surface.init (pos : Int × Int) : chart_surface K where
  m_elevation := 20
  m_rotation := 30
  m_zoom := 1
  m_dx := 0
  m_dy := 0
  m_visible_area := none
  m_mouse_position := pos
  m_mouse_button_pressed := false
  m_chart_viewer := none
  m_x_slice := []
  m_y_slice := []

/-- The value `*std::min_element(first, last)`: the running smallest element is
replaced when a later element compares `<` it; `none` on the empty range. -/
def min_element : List K → Option K
  | [] => none
  | x :: xs => some (xs.foldl (fun smallest a => if a < smallest then a else smallest) x)

/-- The value `*std::max_element(first, last)`: the running largest element is
replaced when it compares `<` a later element; `none` on the empty range. -/
def max_element : List K → Option K
  | [] => none
  | x :: xs => some (xs.foldl (fun largest a => if largest < a then a else largest) x)

/-- The visible area computed at lines 127-131 from the data arrays. -/
def bounding_area (data : surface K) : Option (position_type K) :=
  match min_element data.m_x, min_element data.m_y,
        max_element data.m_x, max_element data.m_y with
  | some minX, some minY, some maxX, some maxY =>
      some ⟨(minX + maxX) / 2, (minY + maxY) / 2, maxX - minX, maxY - minY⟩
  | _, _, _, _ => none

/-- The chart built at lines 122-140 once the visible area `va` is known. -/
def build_chart (data : surface K) (s : chart_surface K) (va : position_type K) :
    SurfaceChart K where
  view_elevation := s.m_elevation
  view_rotation := s.m_rotation
  x_scale := (va.center_x + s.m_dx - va.width * s.m_zoom / 2,
              va.center_x + s.m_dx + va.width * s.m_zoom / 2)
  y_scale := (va.center_y + s.m_dy - va.height * s.m_zoom / 2,
              va.center_y + s.m_dy + va.height * s.m_zoom / 2)
  data_x := data.m_x
  data_y := data.m_y
  data_z := data.m_z

/-- The function `construct_surface` (lines 93-159): the visible area is computed
only when absent (line 125); the result is the updated widget and the chart. -/
def construct_surface (data : surface K) (s : chart_surface K) :
    Option (chart_surface K × SurfaceChart K) :=
  match s.m_visible_area with
  | some va => some (s, build_chart data s va)
  | none =>
    match bounding_area data with
    | some va => some ({ s with m_visible_area := some va }, build_chart data s va)
    | none => none

/-- The overload `redraw_chart()` (lines 66-72): build the chart and show it. -/
def redraw_chart0 (data : surface K) (s : chart_surface K) : Option (chart_surface K) :=
  match construct_surface data s with
  | some (s', chart) => some { s' with m_chart_viewer := some chart }
  | none => none

/-- The state update of lines 77-88 of `redraw_chart(float, float, float, float, float)`. -/
def apply_delta (m : cmath K) (s : chart_surface K)
    (elevation rotation move_dx move_dy dzoom : K) : chart_surface K :=
  let s1 : chart_surface K :=
    match s.m_visible_area with
    | some va =>
      let dx := -move_dy * s.m_zoom
      let dy := move_dx * s.m_zoom
      { s with
        m_dx := s.m_dx + (dx * m.cos (s.m_elevation / 360) + dy * m.sin (s.m_rotation / 360))
                  * va.width
        m_dy := s.m_dy + (dx * m.sin (s.m_elevation / 360) + dy * m.cos (s.m_rotation / 360))
                  * va.height }
    | none => s
  let s2 : chart_surface K :=
    { s1 with
      m_elevation := s1.m_elevation + elevation
      m_rotation := s1.m_rotation - rotation
      m_zoom := s1.m_zoom * dzoom }
  if s2.m_zoom > 1 then { s2 with m_zoom := 1 } else s2

/-- The overload `redraw_chart(elevation, rotation, move_dx, move_dy, dzoom)`
(lines 75-91): the state update followed by `redraw_chart()`. -/
def redraw_chart (m : cmath K) (data : surface K) (s : chart_surface K)
    (elevation rotation move_dx move_dy dzoom : K) : Option (chart_surface K) :=
  redraw_chart0 data (apply_delta m s elevation rotation move_dx move_dy dzoom)

/-- The slot `on_mouse_move_plot_area` (lines 161-186).  `left` is
`QApplication::mouseButtons() & Qt::LeftButton`, `ctrl` is
`QApplication::keyboardModifiers() & Qt::ControlModifier` and `p` is
`QCursor::pos()`, as `(x, y)`. -/
def on_mouse_move_plot_area (m : cmath K) (data : surface K) (s : chart_surface K)
    (left ctrl : Bool) (p : Int × Int) : Option (chart_surface K) :=
  if left then
    if s.m_mouse_button_pressed then
      let dx : K := ((p.2 - s.m_mouse_position.2 : Int) : K)
      let dy : K := ((p.1 - s.m_mouse_position.1 : Int) : K)
      let r :=
        if ctrl then
          redraw_chart m data s 0 0 (dx * c_mouse_move_sensitivity)
            (dy * c_mouse_move_sensitivity) 1
        else
          redraw_chart m data s (dx * c_mouse_rotation_sensitivity)
            (dy * c_mouse_rotation_sensitivity) 0 0 1
      match r with
      | some s' => some { s' with m_mouse_position := p }
      | none => none
    else
      some { s with m_mouse_button_pressed := true, m_mouse_position := p }
  else
    some { s with m_mouse_button_pressed := false }

/-- The slot `on_mouse_wheel_event_slot` (lines 188-192); `delta` is
`wheel_event->delta()`.  The value of `exp` reaches `redraw_chart` as its `float`
argument `dzoom`, hence converted to `float`. -/
def on_mouse_wheel_event_slot (m : cmath K) (data : surface K) (s : chart_surface K)
    (delta : Int) : Option (chart_surface K) :=
  redraw_chart m data s 0 0 0 0 (m.to_float (m.exp (-(delta : K) / c_scroll_sensitivity)))

/-- An input event of the widget: a mouse move with the button, modifier and
cursor readings it observes, or a wheel turn with its delta. -/
inductive Event where
  | mouse_move (left ctrl : Bool) (p : Int × Int)
  | wheel (delta : Int)

/-- Dispatch of one event to its slot. -/
def handle (m : cmath K) (data : surface K) (s : chart_surface K) :
    Event → Option (chart_surface K)
  | .mouse_move left ctrl p => on_mouse_move_plot_area m data s left ctrl p
  | .wheel delta => on_mouse_wheel_event_slot m data s delta

/-- The events of a list handled in order; `none` as soon as one slot is undefined. -/
def run (m : cmath K) (data : surface K) (s : chart_surface K) :
    List Event → Option (chart_surface K)
  | [] => some s
  | e :: es =>
    match handle m data s e with
    | some s' => run m data s' es
    | none => none

/-- The amount line 81 adds to `m_dx` for the pan arguments `(a, b)` in the state `s`
with visible area `va`: the rotation-weighted delta along X. -/
def weighted_dx (m : cmath K) (s : chart_surface K) (va : position_type K) (a b : K) : K :=
  ((-b * s.m_zoom) * m.cos (s.m_elevation / 360)
    + (a * s.m_zoom) * m.sin (s.m_rotation / 360)) * va.width

/-- The amount line 82 adds to `m_dy` for the pan arguments `(a, b)` in the state `s`
with visible area `va`: the rotation-weighted delta along Y. -/
def weighted_dy (m : cmath K) (s : chart_surface K) (va : position_type K) (a b : K) : K :=
  ((-b * s.m_zoom) * m.sin (s.m_elevation / 360)
    + (a * s.m_zoom) * m.cos (s.m_rotation / 360)) * va.height

/-- The closed form of a pure pan step `redraw_chart(0, 0, a, b, 1)` on a state whose
visible area is `va` and whose zoom is at most one: the pan offsets move and the shown
chart is rebuilt; used to state the chunking lemmas. -/
def panned (m : cmath K) (data : surface K) (s : chart_surface K) (va : position_type K)
    (a b : K) : chart_surface K :=
  let t : chart_surface K :=
    { s with
      m_dx := s.m_dx + ((-b * s.m_zoom) * m.cos (s.m_elevation / 360)
                + (a * s.m_zoom) * m.sin (s.m_rotation / 360)) * va.width
      m_dy := s.m_dy + ((-b * s.m_zoom) * m.sin (s.m_elevation / 360)
                + (a * s.m_zoom) * m.cos (s.m_rotation / 360)) * va.height }
  { t with m_chart_viewer := some (build_chart data t va) }

end view

section parse
open RegularExpression

/-- The exceptions that leave `convert_string` and `make_slice`. -/
inductive exn where
  | bad_lexical_cast
  | c_string (msg : String)
  | std_string (msg : String)
deriving DecidableEq

/-- The characters the class `\d` matches in a `char` text. -/
def digit_chars : List Char := ['0', '1', '2', '3', '4', '5', '6', '7', '8', '9']

/-- The expression `\d`. -/
def re_digit : RegularExpression Char :=
  char '0' + char '1' + char '2' + char '3' + char '4' + char '5' + char '6' + char '7'
    + char '8' + char '9'

/-- The expression `r+`: one `r` followed by any number of `r`. -/
def re_plus (r : RegularExpression Char) : RegularExpression Char := r * star r

/-- The expression `r?`: `r` or the empty text. -/
def re_opt (r : RegularExpression Char) : RegularExpression Char := r + 1

/-- The pattern `(\d+)/(\d+)/(\d+)` of line 225. -/
def date_str : RegularExpression Char :=
  re_plus re_digit * (char '/' * (re_plus re_digit * (char '/' * re_plus re_digit)))

/-- The pattern `(\d+)([.](\d+))?` of line 238. -/
def double_str : RegularExpression Char :=
  re_plus re_digit * re_opt (char '.' * re_plus re_digit)

/-- The call `boost::regex_match(text, results, r)`: the whole text matches `r`. -/
def regex_match (text : List Char) (r : RegularExpression Char) : Bool := r.rmatch text

/-- The text before the first occurrence of `sep`. -/
def before (sep : Char) (text : List Char) : List Char := text.takeWhile (fun c => c != sep)

/-- The text after the first occurrence of `sep`. -/
def after (sep : Char) (text : List Char) : List Char :=
  (text.dropWhile (fun c => c != sep)).drop 1

/-- The sub-matches `results[1]`, `results[2]`, `results[3]` of a text matching
`date_str`: a group of digits holds no `/`, so the groups are the text before the
first `/`, between the two `/`, and after the second. -/
def date_groups (text : List Char) : List Char × List Char × List Char :=
  (before '/' text, before '/' (after '/' text), after '/' (after '/' text))

/-- The number a text of decimal digits denotes. -/
def decimal_value (text : List Char) : Nat :=
  text.foldl (fun n c => 10 * n + (c.toNat - '0'.toNat)) 0

/-- A non-empty text of decimal digits. -/
def is_digits (text : List Char) : Bool := !text.isEmpty && text.all (fun c => c ∈ digit_chars)

/-- The largest `int`. -/
def INT_MAX : Int := 2147483647

/-- The value of an `int` expression whose exact value is `n`, wrapped to 32 bits. -/
def wrap_int (n : Int) : Int := (n + 2147483648) % 4294967296 - 2147483648

/-- The call `boost::lexical_cast<int>(text)`: an optional sign and decimal digits;
`bad_lexical_cast` when the text has another form or the number is not an `int`. -/
def lexical_cast_int (text : List Char) : Except exn Int :=
  match text with
  | '-' :: ds =>
    if is_digits ds && decide ((decimal_value ds : Int) ≤ INT_MAX + 1) then
      .ok (-(decimal_value ds : Int))
    else .error .bad_lexical_cast
  | '+' :: ds =>
    if is_digits ds && decide ((decimal_value ds : Int) ≤ INT_MAX) then
      .ok (decimal_value ds : Int)
    else .error .bad_lexical_cast
  | ds =>
    if is_digits ds && decide ((decimal_value ds : Int) ≤ INT_MAX) then
      .ok (decimal_value ds : Int)
    else .error .bad_lexical_cast

/-- The number denoted by a plain decimal text `digits` or `digits.digits`. -/
def decimal_number (text : List Char) : ℚ :=
  (decimal_value (before '.' text) : ℚ)
    + (decimal_value (after '.' text) : ℚ) / 10 ^ (after '.' text).length

/-- The least number that round-to-nearest takes beyond the largest `double`
`2 ^ 1024 - 2 ^ 971`: the middle between it and `2 ^ 1024`. -/
def DBL_OVERFLOW : ℚ := 2 ^ 1024 - 2 ^ 970

variable {K : Type} [LinearOrderedField K]

/-- The call `boost::lexical_cast<double>(text)` on the plain decimal texts
`digits` and `digits.digits`, the only ones the guard of line 239 lets through: the
text is read as a `double`, that is the denoted number rounded to the nearest `double`
(a number too small for a normal `double` is read as a subnormal one or as zero); a
number that rounds beyond the largest `double` makes the read fail, and the cast throws
`bad_lexical_cast`.  Every other text is reported as `bad_lexical_cast`. -/
def lexical_cast_double (text : List Char) : Except exn K :=
  if is_digits text || (is_digits (before '.' text) && is_digits (after '.' text)) then
    if DBL_OVERFLOW ≤ decimal_number text then .error .bad_lexical_cast
    else .ok ((double_round (decimal_number text) : ℚ) : K)
  else .error .bad_lexical_cast

/-- The call `std::replace(begin, end, ',', '.')` of line 236. -/
def replace_commas (text : List Char) : List Char :=
  text.map (fun c => if c = ',' then '.' else c)

/-- The function `convert_string` (lines 220-243).  `chartTime` is the renderer's
`Chart::chartTime(year, month, day)`. -/
def convert_string (chartTime : Int → Int → Int → K) (value : List Char) : Except exn K :=
  if regex_match value date_str then
    match lexical_cast_int (date_groups value).2.2 with
    | .error e => .error e
    | .ok y =>
      let year := wrap_int (2000 + y)
      match lexical_cast_int (date_groups value).2.1 with
      | .error e => .error e
      | .ok month =>
        match lexical_cast_int (date_groups value).1 with
        | .error e => .error e
        | .ok day => .ok (chartTime year month day)
  else
    let adjusted_value := replace_commas value
    if regex_match adjusted_value double_str then
      lexical_cast_double adjusted_value
    else
      .error (.c_string "convert_string: can\x27t make conversion")

/-- The function `make_slice` (lines 245-268): every exception of `convert_string`
is swallowed by `catch(...)`; otherwise the request goes to the view of its axis. -/
def make_slice (chartTime : Int → Int → Int → K) (data : surface K) (s : chart_surface K)
    (axis : axis_type) (value : List Char) : Except exn (chart_surface K) :=
  match convert_string chartTime value with
  | .error _ => .ok s
  | .ok converted_value =>
    let slice : surface_slice K :=
      { surface_id := data.uid, axis := axis, m_prefs := ⟨axis⟩, slice_value := converted_value }
    match axis with
    | .X => .ok { s with m_x_slice := s.m_x_slice ++ [slice] }
    | .Y => .ok { s with m_y_slice := s.m_y_slice ++ [slice] }
    | _ => .error (.std_string "Can make slices only for X and Y axes")

end parse

/-! ## Auxiliary facts about rounding -/

theorem two_zpow_pos {R : Type} [LinearOrderedField R] (e : Int) : (0 : R) < 2 ^ e :=
  zpow_pos (by norm_num) e

section rounding_lemmas
variable {R : Type} [LinearOrderedField R] [FloorRing R]

theorem round_half_even_intCast (n : Int) : round_half_even (n : R) = n := by
  simp [round_half_even]

/-- A value `n * 2 ^ k` of the format is left as it is. -/
theorem binary_round_exact (prec : Nat) (emin : Int) (n : Nat) (k : Int)
    (hn0 : 0 < n) (hn : n < 2 ^ prec) (hk : emin ≤ k) :
    binary_round prec emin ((n : R) * 2 ^ k) = (n : R) * 2 ^ k := by
  have h2k := two_zpow_pos (R := R) k
  have hnR : (0 : R) < n := by exact_mod_cast hn0
  have hx : (0 : R) < (n : R) * 2 ^ k := mul_pos hnR h2k
  unfold binary_round
  rw [if_pos hx]
  -- the exponent of the last place is at most k
  have hlog : Int.log 2 ((n : R) * 2 ^ k) < prec + k := by
    apply (Int.lt_zpow_iff_log_lt (b := 2) (by norm_num) hx).mp
    have : ((2 : ℕ) : R) ^ ((prec : Int) + k) = 2 ^ prec * 2 ^ k := by
      rw [Nat.cast_ofNat, zpow_add₀ (by norm_num : (2 : R) ≠ 0), zpow_natCast]
    rw [this]
    have : (n : R) < 2 ^ prec := by exact_mod_cast hn
    exact mul_lt_mul_of_pos_right this h2k
  have he : ulp_exponent prec emin ((n : R) * 2 ^ k) ≤ k := by
    unfold ulp_exponent
    apply max_le _ hk
    omega
  obtain ⟨j, hj⟩ : ∃ j : Nat, k = ulp_exponent prec emin ((n : R) * 2 ^ k) + j :=
    ⟨(k - ulp_exponent prec emin ((n : R) * 2 ^ k)).toNat, by omega⟩
  unfold binary_round_pos
  generalize ulp_exponent prec emin ((n : R) * 2 ^ k) = e at he hj ⊢
  have h2e := two_zpow_pos (R := R) e
  have hq : (n : R) * 2 ^ k / 2 ^ e = ((n * 2 ^ j : Int) : R) := by
    rw [hj, zpow_add₀ (by norm_num : (2 : R) ≠ 0), zpow_natCast]
    push_cast
    field_simp
    ring
  rw [hq, round_half_even_intCast, hj, zpow_add₀ (by norm_num : (2 : R) ≠ 0), zpow_natCast]
  push_cast
  ring


end rounding_lemmas

/-! ## Auxiliary facts about the view state -/

section view_lemmas
variable {K : Type} [LinearOrderedField K]

theorem foldl_smallest (xs : List K) (a : K) :
    ((xs.foldl (fun smallest x => if x < smallest then x else smallest) a = a) ∨
      (xs.foldl (fun smallest x => if x < smallest then x else smallest) a ∈ xs)) ∧
    xs.foldl (fun smallest x => if x < smallest then x else smallest) a ≤ a ∧
    ∀ x ∈ xs, xs.foldl (fun smallest x => if x < smallest then x else smallest) a ≤ x := by
  induction xs generalizing a with
  | nil => simp
  | cons y ys ih =>
    simp only [List.foldl_cons, List.mem_cons]
    obtain ⟨h1, h2, h3⟩ := ih (if y < a then y else a)
    by_cases hya : y < a
    · simp only [hya, if_true] at h1 h2 h3 ⊢
      refine ⟨?_, le_trans h2 hya.le, ?_⟩
      · rcases h1 with h | h
        · exact Or.inr (Or.inl h)
        · exact Or.inr (Or.inr h)
      · rintro x (rfl | hx)
        · exact h2
        · exact h3 x hx
    · simp only [hya, if_false] at h1 h2 h3 ⊢
      refine ⟨?_, h2, ?_⟩
      · rcases h1 with h | h
        · exact Or.inl h
        · exact Or.inr (Or.inr h)
      · rintro x (rfl | hx)
        · exact le_trans h2 (not_lt.mp hya)
        · exact h3 x hx

theorem foldl_largest (xs : List K) (a : K) :
    ((xs.foldl (fun largest x => if largest < x then x else largest) a = a) ∨
      (xs.foldl (fun largest x => if largest < x then x else largest) a ∈ xs)) ∧
    a ≤ xs.foldl (fun largest x => if largest < x then x else largest) a ∧
    ∀ x ∈ xs, x ≤ xs.foldl (fun largest x => if largest < x then x else largest) a := by
  induction xs generalizing a with
  | nil => simp
  | cons y ys ih =>
    simp only [List.foldl_cons, List.mem_cons]
    obtain ⟨h1, h2, h3⟩ := ih (if a < y then y else a)
    by_cases hya : a < y
    · simp only [hya, if_true] at h1 h2 h3 ⊢
      refine ⟨?_, le_trans hya.le h2, ?_⟩
      · rcases h1 with h | h
        · exact Or.inr (Or.inl h)
        · exact Or.inr (Or.inr h)
      · rintro x (rfl | hx)
        · exact h2
        · exact h3 x hx
    · simp only [hya, if_false] at h1 h2 h3 ⊢
      refine ⟨?_, h2, ?_⟩
      · rcases h1 with h | h
        · exact Or.inl h
        · exact Or.inr (Or.inr h)
      · rintro x (rfl | hx)
        · exact le_trans (not_lt.mp hya) h2
        · exact h3 x hx

/-- On a non-empty array `min_element` is the least element of the array. -/
theorem min_element_spec (xs : List K) (h : xs ≠ []) :
    ∃ lo, min_element xs = some lo ∧ lo ∈ xs ∧ ∀ x ∈ xs, lo ≤ x := by
  cases xs with
  | nil => exact absurd rfl h
  | cons y ys =>
    obtain ⟨h1, h2, h3⟩ := foldl_smallest ys y
    refine ⟨_, rfl, ?_, ?_⟩
    · rcases h1 with h | h
      · rw [h]; exact List.mem_cons_self _ _
      · exact List.mem_cons_of_mem _ h
    · intro x hx
      rcases List.mem_cons.mp hx with rfl | hx
      · exact h2
      · exact h3 x hx

/-- On a non-empty array `max_element` is the greatest element of the array. -/
theorem max_element_spec (xs : List K) (h : xs ≠ []) :
    ∃ hi, max_element xs = some hi ∧ hi ∈ xs ∧ ∀ x ∈ xs, x ≤ hi := by
  cases xs with
  | nil => exact absurd rfl h
  | cons y ys =>
    obtain ⟨h1, h2, h3⟩ := foldl_largest ys y
    refine ⟨_, rfl, ?_, ?_⟩
    · rcases h1 with h | h
      · rw [h]; exact List.mem_cons_self _ _
      · exact List.mem_cons_of_mem _ h
    · intro x hx
      rcases List.mem_cons.mp hx with rfl | hx
      · exact h2
      · exact h3 x hx

/-- With an established visible area `construct_surface` changes nothing in the widget. -/
theorem construct_surface_of_area (data : surface K) (s : chart_surface K)
    (va : position_type K) (h : s.m_visible_area = some va) :
    construct_surface data s = some (s, build_chart data s va) := by
  simp [construct_surface, h]

/-- With an established visible area `redraw_chart()` only replaces the shown chart. -/
theorem redraw_chart0_of_area (data : surface K) (s : chart_surface K)
    (va : position_type K) (h : s.m_visible_area = some va) :
    redraw_chart0 data s = some { s with m_chart_viewer := some (build_chart data s va) } := by
  simp [redraw_chart0, construct_surface_of_area data s va h]

/-- Without a visible area `redraw_chart()` installs the bounding area of the data. -/
theorem redraw_chart0_of_none (data : surface K) (s : chart_surface K)
    (va : position_type K) (h : s.m_visible_area = none) (hb : bounding_area data = some va) :
    redraw_chart0 data s =
      some { s with m_visible_area := some va, m_chart_viewer := some (build_chart data s va) } := by
  simp [redraw_chart0, construct_surface, h, hb]

/-- On non-empty arrays the bounding area is built from the least and greatest
elements of the X and of the Y array. -/
theorem bounding_area_spec (data : surface K) (hx : data.m_x ≠ []) (hy : data.m_y ≠ []) :
    ∃ minX maxX minY maxY : K,
      (minX ∈ data.m_x ∧ ∀ x ∈ data.m_x, minX ≤ x) ∧
      (maxX ∈ data.m_x ∧ ∀ x ∈ data.m_x, x ≤ maxX) ∧
      (minY ∈ data.m_y ∧ ∀ y ∈ data.m_y, minY ≤ y) ∧
      (maxY ∈ data.m_y ∧ ∀ y ∈ data.m_y, y ≤ maxY) ∧
      bounding_area data
        = some ⟨(minX + maxX) / 2, (minY + maxY) / 2, maxX - minX, maxY - minY⟩ := by
  obtain ⟨a, ha, ha1, ha2⟩ := min_element_spec data.m_x hx
  obtain ⟨b, hb, hb1, hb2⟩ := min_element_spec data.m_y hy
  obtain ⟨c, hc, hc1, hc2⟩ := max_element_spec data.m_x hx
  obtain ⟨d, hd, hd1, hd2⟩ := max_element_spec data.m_y hy
  refine ⟨a, c, b, d, ⟨ha1, ha2⟩, ⟨hc1, hc2⟩, ⟨hb1, hb2⟩, ⟨hd1, hd2⟩, ?_⟩
  simp [bounding_area, ha, hb, hc, hd]

/-- The bounding area exists as soon as both arrays are non-empty. -/
theorem bounding_area_isSome (data : surface K) (hx : data.m_x ≠ []) (hy : data.m_y ≠ []) :
    ∃ va, bounding_area data = some va := by
  obtain ⟨a, c, b, d, -, -, -, -, h⟩ := bounding_area_spec data hx hy
  exact ⟨_, h⟩

/-- The render step is defined when the area is established or the data non-empty, and
then it keeps every member except the visible area (set once) and the shown chart. -/
theorem redraw_chart0_defined (data : surface K) (s : chart_surface K)
    (hdef : s.m_visible_area.isSome = true ∨ (data.m_x ≠ [] ∧ data.m_y ≠ [])) :
    ∃ s' va, redraw_chart0 data s = some s' ∧ s'.m_visible_area = some va ∧
      (∀ wa, s.m_visible_area = some wa → wa = va) ∧
      s'.m_elevation = s.m_elevation ∧ s'.m_rotation = s.m_rotation ∧
      s'.m_zoom = s.m_zoom ∧ s'.m_dx = s.m_dx ∧ s'.m_dy = s.m_dy ∧
      s'.m_mouse_position = s.m_mouse_position ∧
      s'.m_mouse_button_pressed = s.m_mouse_button_pressed ∧
      s'.m_x_slice = s.m_x_slice ∧ s'.m_y_slice = s.m_y_slice := by
  cases hva : s.m_visible_area with
  | some va =>
    refine ⟨_, va, redraw_chart0_of_area data s va hva, hva, ?_, rfl, rfl, rfl, rfl, rfl,
      rfl, rfl, rfl, rfl⟩
    intro wa hwa
    exact (Option.some.inj hwa).symm
  | none =>
    rw [hva] at hdef
    rcases hdef with h | ⟨hx, hy⟩
    · simp at h
    · obtain ⟨va, hb⟩ := bounding_area_isSome data hx hy
      refine ⟨_, va, redraw_chart0_of_none data s va hva hb, rfl, ?_, rfl, rfl, rfl, rfl, rfl,
        rfl, rfl, rfl, rfl⟩
      intro wa hwa
      simp at hwa

/-- Whatever `redraw_chart()` returns keeps the angles, zoom, pan, mouse members and
slice views, and keeps an established visible area. -/
theorem redraw_chart0_keeps (data : surface K) (s s' : chart_surface K)
    (h : redraw_chart0 data s = some s') :
    s'.m_elevation = s.m_elevation ∧ s'.m_rotation = s.m_rotation ∧
      s'.m_zoom = s.m_zoom ∧ s'.m_dx = s.m_dx ∧ s'.m_dy = s.m_dy ∧
      s'.m_mouse_position = s.m_mouse_position ∧
      s'.m_mouse_button_pressed = s.m_mouse_button_pressed ∧
      s'.m_x_slice = s.m_x_slice ∧ s'.m_y_slice = s.m_y_slice ∧
      s'.m_visible_area.isSome = true ∧
      (∀ va, s.m_visible_area = some va → s'.m_visible_area = some va) := by
  cases hva : s.m_visible_area with
  | some va =>
    rw [redraw_chart0_of_area data s va hva] at h
    cases h
    simp [hva]
  | none =>
    cases hb : bounding_area data with
    | none => simp [redraw_chart0, construct_surface, hva, hb] at h
    | some va =>
      rw [redraw_chart0_of_none data s va hva hb] at h
      cases h
      simp

/-- The angles and zoom after the state update of `redraw_chart`. -/
theorem apply_delta_fields (m : cmath K) (s : chart_surface K)
    (elevation rotation move_dx move_dy dzoom : K) :
    (apply_delta m s elevation rotation move_dx move_dy dzoom).m_elevation
        = s.m_elevation + elevation ∧
      (apply_delta m s elevation rotation move_dx move_dy dzoom).m_rotation
        = s.m_rotation - rotation ∧
      (apply_delta m s elevation rotation move_dx move_dy dzoom).m_zoom
        = min (s.m_zoom * dzoom) 1 ∧
      (apply_delta m s elevation rotation move_dx move_dy dzoom).m_visible_area
        = s.m_visible_area ∧
      (apply_delta m s elevation rotation move_dx move_dy dzoom).m_mouse_position
        = s.m_mouse_position ∧
      (apply_delta m s elevation rotation move_dx move_dy dzoom).m_mouse_button_pressed
        = s.m_mouse_button_pressed ∧
      (apply_delta m s elevation rotation move_dx move_dy dzoom).m_x_slice = s.m_x_slice ∧
      (apply_delta m s elevation rotation move_dx move_dy dzoom).m_y_slice = s.m_y_slice := by
  unfold apply_delta
  cases hva : s.m_visible_area with
  | some va =>
    by_cases hz : s.m_zoom * dzoom > 1
    · simp [hz, hva, min_eq_right hz.le]
    · simp [hz, hva, min_eq_left (not_lt.mp hz)]
  | none =>
    by_cases hz : s.m_zoom * dzoom > 1
    · simp [hz, hva, min_eq_right hz.le]
    · simp [hz, hva, min_eq_left (not_lt.mp hz)]

/-- The pan offsets after the state update, with the visible area established. -/
theorem apply_delta_pan (m : cmath K) (s : chart_surface K) (va : position_type K)
    (h : s.m_visible_area = some va) (elevation rotation move_dx move_dy dzoom : K) :
    (apply_delta m s elevation rotation move_dx move_dy dzoom).m_dx
        = s.m_dx + ((-move_dy * s.m_zoom) * m.cos (s.m_elevation / 360)
            + (move_dx * s.m_zoom) * m.sin (s.m_rotation / 360)) * va.width ∧
      (apply_delta m s elevation rotation move_dx move_dy dzoom).m_dy
        = s.m_dy + ((-move_dy * s.m_zoom) * m.sin (s.m_elevation / 360)
            + (move_dx * s.m_zoom) * m.cos (s.m_rotation / 360)) * va.height := by
  unfold apply_delta
  by_cases hz : s.m_zoom * dzoom > 1
  · simp [hz, h]
  · simp [hz, h]

end view_lemmas

section view_steps
variable {K : Type} [LinearOrderedField K]

/-- One call of `redraw_chart` with a delta, when its render step is defined. -/
theorem redraw_chart_spec (m : cmath K) (data : surface K) (s : chart_surface K)
    (elevation rotation move_dx move_dy dzoom : K)
    (hdef : s.m_visible_area.isSome = true ∨ (data.m_x ≠ [] ∧ data.m_y ≠ [])) :
    ∃ s', redraw_chart m data s elevation rotation move_dx move_dy dzoom = some s' ∧
      s'.m_elevation = s.m_elevation + elevation ∧
      s'.m_rotation = s.m_rotation - rotation ∧
      s'.m_zoom = min (s.m_zoom * dzoom) 1 ∧
      s'.m_visible_area.isSome = true ∧
      (∀ va, s.m_visible_area = some va → s'.m_visible_area = some va) := by
  obtain ⟨h1, h2, h3, h4, -⟩ := apply_delta_fields m s elevation rotation move_dx move_dy dzoom
  have hdef' : (apply_delta m s elevation rotation move_dx move_dy dzoom).m_visible_area.isSome
      = true ∨ (data.m_x ≠ [] ∧ data.m_y ≠ []) := by rw [h4]; exact hdef
  obtain ⟨s', va, hs', hva, -, e1, e2, e3, -⟩ := redraw_chart0_defined data _ hdef'
  have hk := redraw_chart0_keeps data _ s' hs'
  refine ⟨s', hs', by rw [e1, h1], by rw [e2, h2], by rw [e3, h3], by simp [hva], ?_⟩
  intro wa hwa
  exact hk.2.2.2.2.2.2.2.2.2.2 wa (by rw [h4]; exact hwa)

/-- A pure pan step `redraw_chart(0, 0, a, b, 1)` in closed form, for a state with an
established visible area and zoom at most one. -/
theorem pan_step_closed_form (m : cmath K) (data : surface K) (s : chart_surface K)
    (va : position_type K) (h : s.m_visible_area = some va) (hz : s.m_zoom ≤ 1) (a b : K) :
    redraw_chart m data s 0 0 a b 1 = some (panned m data s va a b) := by
  obtain ⟨el, ro, zo, dx, dy, area, mp, mb, cv, xs, ys⟩ := s
  simp only at h hz
  subst h
  have hz' : ¬ (zo > 1) := not_lt.mpr hz
  simp [redraw_chart, apply_delta, hz', redraw_chart0, construct_surface, panned]

end view_steps

section view_events
variable {K : Type} [LinearOrderedField K]

end view_events

section view_area
variable {K : Type} [LinearOrderedField K]

/-- One event from a state with an established visible area: the slot is defined and
the area is the same afterwards. -/
theorem handle_keeps_area (m : cmath K) (data : surface K) (s : chart_surface K)
    (va : position_type K) (h : s.m_visible_area = some va) (e : Event) :
    ∃ s', handle m data s e = some s' ∧ s'.m_visible_area = some va := by
  have hdef : s.m_visible_area.isSome = true ∨ (data.m_x ≠ [] ∧ data.m_y ≠ []) :=
    Or.inl (by simp [h])
  cases e with
  | wheel delta =>
    obtain ⟨s', hs', -, -, -, -, h5⟩ := redraw_chart_spec m data s 0 0 0 0
      (m.to_float (m.exp (-(delta : K) / c_scroll_sensitivity))) hdef
    exact ⟨s', hs', h5 va h⟩
  | mouse_move left ctrl p =>
    cases left with
    | false =>
      exact ⟨{ s with m_mouse_button_pressed := false },
        by simp [handle, on_mouse_move_plot_area], h⟩
    | true =>
      cases hp : s.m_mouse_button_pressed with
      | false =>
        exact ⟨{ s with m_mouse_button_pressed := true, m_mouse_position := p },
          by simp [handle, on_mouse_move_plot_area, hp], h⟩
      | true =>
        cases ctrl with
        | true =>
          obtain ⟨s', hs', -, -, -, -, h5⟩ := redraw_chart_spec m data s 0 0
            (((p.2 - s.m_mouse_position.2 : Int) : K) * c_mouse_move_sensitivity)
            (((p.1 - s.m_mouse_position.1 : Int) : K) * c_mouse_move_sensitivity) 1 hdef
          refine ⟨{ s' with m_mouse_position := p }, ?_, h5 va h⟩
          simp only [handle, on_mouse_move_plot_area, hp, if_true, ↓reduceIte, hs']
        | false =>
          obtain ⟨s', hs', -, -, -, -, h5⟩ := redraw_chart_spec m data s
            (((p.2 - s.m_mouse_position.2 : Int) : K) * c_mouse_rotation_sensitivity)
            (((p.1 - s.m_mouse_position.1 : Int) : K) * c_mouse_rotation_sensitivity) 0 0 1 hdef
          refine ⟨{ s' with m_mouse_position := p }, ?_, h5 va h⟩
          simp only [handle, on_mouse_move_plot_area, hp, if_true, ↓reduceIte, hs',
            Bool.false_eq_true]

/-- Any list of events from a state with an established visible area: every slot is
defined and the area is the same at the end. -/
theorem run_keeps_area (m : cmath K) (data : surface K) (va : position_type K)
    (es : List Event) :
    ∀ s : chart_surface K, s.m_visible_area = some va →
      ∃ s', run m data s es = some s' ∧ s'.m_visible_area = some va := by
  induction es with
  | nil => intro s h; exact ⟨s, rfl, h⟩
  | cons e es ih =>
    intro s h
    obtain ⟨s1, hs1, h1⟩ := handle_keeps_area m data s va h e
    obtain ⟨s', hs', h'⟩ := ih s1 h1
    exact ⟨s', by simp only [run, hs1]; exact hs', h'⟩

end view_area

section view_pan
variable {K : Type} [LinearOrderedField K]

/-- On a state that differs from `s` in the mouse members only, the weighted deltas are
those of `s`. -/
theorem weighted_of_fields (m : cmath K) (s t : chart_surface K) (va : position_type K)
    (a b : K) (hz : t.m_zoom = s.m_zoom) (he : t.m_elevation = s.m_elevation)
    (hr : t.m_rotation = s.m_rotation) :
    weighted_dx m t va a b = weighted_dx m s va a b ∧
      weighted_dy m t va a b = weighted_dy m s va a b := by
  unfold weighted_dx weighted_dy
  rw [hz, he, hr]
  exact ⟨rfl, rfl⟩

end view_pan

/-! ## The claims about the view state -/

section view_claims
variable {K : Type} [LinearOrderedField K]

/-- C1: whatever state `redraw_chart(elevation, rotation, move_dx, move_dy, dzoom)`
returns has elevation `m_elevation + elevation`, rotation `m_rotation - rotation` and
zoom `min (m_zoom * dzoom) 1`, with or without an established visible area; and the
call does return a state whenever the visible area is established or the X and Y
arrays are non-empty (the render of an empty array without area is undefined). -/
theorem redraw_chart_accumulates (m : cmath K) (data : surface K) (s : chart_surface K)
    (elevation rotation move_dx move_dy dzoom : K) :
    (∀ s', redraw_chart m data s elevation rotation move_dx move_dy dzoom = some s' →
      s'.m_elevation = s.m_elevation + elevation ∧
      s'.m_rotation = s.m_rotation - rotation ∧
      s'.m_zoom = min (s.m_zoom * dzoom) 1) ∧
    ((s.m_visible_area.isSome = true ∨ (data.m_x ≠ [] ∧ data.m_y ≠ [])) →
      ∃ s', redraw_chart m data s elevation rotation move_dx move_dy dzoom = some s') := by
  constructor
  · intro s' hs'
    obtain ⟨h1, h2, h3, -⟩ := apply_delta_fields m s elevation rotation move_dx move_dy dzoom
    obtain ⟨e1, e2, e3, -⟩ := redraw_chart0_keeps data _ s' hs'
    exact ⟨by rw [e1, h1], by rw [e2, h2], by rw [e3, h3]⟩
  · intro hdef
    obtain ⟨s', hs', -⟩ := redraw_chart_spec m data s elevation rotation move_dx move_dy dzoom hdef
    exact ⟨s', hs'⟩

/-- C1, at the constructor state over the reals, data `X = Y = [0, 1]`, deltas
`(1, 2, 0, 0, 1/2)`: the call returns, with zoom `min (1 * (1/2)) 1`. -/
theorem redraw_chart_accumulates_witness :
    ∃ s', redraw_chart (⟨Real.cos, Real.sin, Real.exp, float_round⟩ : cmath ℝ) ⟨[0, 1], [0, 1], [0, 0], 7⟩
        (chart_surface.init (0, 0)) 1 2 0 0 (1 / 2) = some s' ∧
      s'.m_elevation = 20 + 1 ∧ s'.m_rotation = 30 - 2 ∧ s'.m_zoom = min (1 * (1 / 2)) 1 :=
  match (redraw_chart_accumulates (⟨Real.cos, Real.sin, Real.exp, float_round⟩ : cmath ℝ)
      ⟨[0, 1], [0, 1], [0, 0], 7⟩ (chart_surface.init (0, 0)) 1 2 0 0 (1 / 2)).2
      (Or.inr ⟨by simp, by simp⟩) with
  | ⟨s', hs'⟩ =>
    ⟨s', hs', (redraw_chart_accumulates (⟨Real.cos, Real.sin, Real.exp, float_round⟩ : cmath ℝ)
      ⟨[0, 1], [0, 1], [0, 0], 7⟩ (chart_surface.init (0, 0)) 1 2 0 0 (1 / 2)).1 s' hs'⟩

/-- C2, refuted as stated: over the reals, with the constructor's angles and zoom
(elevation 20, rotation 30, zoom 1), no pan yet and the visible area of the data
`X = Y = [0, 1]` (width 1), `redraw_chart(0, 0, 0, 1, 1)` does not add
`(0 * cos(20/360) + 1 * sin(30/360)) * 1` to `m_dx`: it adds `-cos(20/360)`. -/
theorem redraw_chart_pan_counterexample :
    ∃ s', redraw_chart (⟨Real.cos, Real.sin, Real.exp, float_round⟩ : cmath ℝ) ⟨[0, 1], [0, 1], [0, 0], 7⟩
        { m_elevation := 20, m_rotation := 30, m_zoom := 1, m_dx := 0, m_dy := 0,
          m_visible_area := some ⟨1 / 2, 1 / 2, 1, 1⟩, m_mouse_position := (0, 0),
          m_mouse_button_pressed := false, m_chart_viewer := none,
          m_x_slice := [], m_y_slice := [] } 0 0 0 1 1 = some s' ∧
      s'.m_dx ≠ 0 + (0 * Real.cos (20 / 360) + 1 * Real.sin (30 / 360)) * 1 := by
  refine ⟨_, pan_step_closed_form _ _ _ ⟨1 / 2, 1 / 2, 1, 1⟩ rfl (le_refl (1 : ℝ)) 0 1, ?_⟩
  have hpi : (3 : ℝ) < Real.pi := Real.pi_gt_three
  have hc : 0 < Real.cos (20 / 360) :=
    Real.cos_pos_of_mem_Ioo ⟨by linarith, by linarith⟩
  have hs : 0 < Real.sin (30 / 360) :=
    Real.sin_pos_of_pos_of_lt_pi (by norm_num) (by linarith)
  simp only [panned]
  intro h
  linarith

/-- C2, amended: with the visible area `va` established, `redraw_chart` adds to `m_dx`
the amount `((-move_dy * zoom) * cos(elevation/360) + (move_dx * zoom) * sin(rotation/360))
* va.width` and to `m_dy` the amount `((-move_dy * zoom) * sin(elevation/360) +
(move_dx * zoom) * cos(rotation/360)) * va.height`, with the elevation, rotation and
zoom of before the update. -/
theorem redraw_chart_pan (m : cmath K) (data : surface K) (s : chart_surface K)
    (va : position_type K) (elevation rotation move_dx move_dy dzoom : K)
    (h : s.m_visible_area = some va) :
    ∃ s', redraw_chart m data s elevation rotation move_dx move_dy dzoom = some s' ∧
      s'.m_dx = s.m_dx + ((-move_dy * s.m_zoom) * m.cos (s.m_elevation / 360)
          + (move_dx * s.m_zoom) * m.sin (s.m_rotation / 360)) * va.width ∧
      s'.m_dy = s.m_dy + ((-move_dy * s.m_zoom) * m.sin (s.m_elevation / 360)
          + (move_dx * s.m_zoom) * m.cos (s.m_rotation / 360)) * va.height := by
  obtain ⟨s', hs', -⟩ := redraw_chart_spec m data s elevation rotation move_dx move_dy dzoom
    (Or.inl (by simp [h]))
  obtain ⟨-, -, -, e4, e5, -⟩ := redraw_chart0_keeps data _ s' hs'
  obtain ⟨p1, p2⟩ := apply_delta_pan m s va h elevation rotation move_dx move_dy dzoom
  exact ⟨s', hs', by rw [e4, p1], by rw [e5, p2]⟩

/-- C2 amended, over the reals: elevation 20, rotation 30, zoom `1/2`, area of width 2
and height 4, pan arguments `(3, 5)`. -/
theorem redraw_chart_pan_witness :
    ∃ s', redraw_chart (⟨Real.cos, Real.sin, Real.exp, float_round⟩ : cmath ℝ)
        ⟨[0, 2], [0, 4], [0, 0], 7⟩
        { m_elevation := 20, m_rotation := 30, m_zoom := 1 / 2, m_dx := 0, m_dy := 0,
          m_visible_area := some ⟨1, 2, 2, 4⟩, m_mouse_position := (0, 0),
          m_mouse_button_pressed := false, m_chart_viewer := none,
          m_x_slice := [], m_y_slice := [] } 0 0 3 5 1 = some s' ∧
      s'.m_dx = 0 + ((-5 * (1 / 2)) * Real.cos (20 / 360)
          + (3 * (1 / 2)) * Real.sin (30 / 360)) * 2 ∧
      s'.m_dy = 0 + ((-5 * (1 / 2)) * Real.sin (20 / 360)
          + (3 * (1 / 2)) * Real.cos (30 / 360)) * 4 :=
  redraw_chart_pan (⟨Real.cos, Real.sin, Real.exp, float_round⟩ : cmath ℝ) ⟨[0, 2], [0, 4], [0, 0], 7⟩ _
    ⟨1, 2, 2, 4⟩ 0 0 3 5 1 rfl

/-- C3, refuted as stated: with area centre 0 and width 2, `m_dx = 1` and zoom 1 the
lower X bound passed to the renderer is not `center - pan - extent * zoom / 2 = -2`. -/
theorem construct_surface_axis_counterexample :
    ∃ s' chart, construct_surface (⟨[-1, 1], [-1, 1], [0, 0], 7⟩ : surface ℚ)
        { m_elevation := 20, m_rotation := 30, m_zoom := 1, m_dx := 1, m_dy := 0,
          m_visible_area := some ⟨0, 0, 2, 2⟩, m_mouse_position := (0, 0),
          m_mouse_button_pressed := false, m_chart_viewer := none,
          m_x_slice := [], m_y_slice := [] } = some (s', chart) ∧
      chart.x_scale.1 ≠ 0 - 1 - 2 * 1 / 2 := by
  refine ⟨_, _, construct_surface_of_area _ _ ⟨0, 0, 2, 2⟩ rfl, ?_⟩
  norm_num [build_chart]

/-- C3, amended: whenever the visible area is established or the arrays are non-empty,
`construct_surface` returns, and the ranges it passes to the renderer are, for the
visible area `va` in force after the call, `center + pan - extent * zoom / 2` and
`center + pan + extent * zoom / 2`, for X (width, `m_dx`) and Y (height, `m_dy`). -/
theorem construct_surface_axis (data : surface K) (s : chart_surface K)
    (hdef : s.m_visible_area.isSome = true ∨ (data.m_x ≠ [] ∧ data.m_y ≠ [])) :
    ∃ s' chart va, construct_surface data s = some (s', chart) ∧
      s'.m_visible_area = some va ∧
      (∀ wa, s.m_visible_area = some wa → wa = va) ∧
      chart.x_scale = (va.center_x + s.m_dx - va.width * s.m_zoom / 2,
                       va.center_x + s.m_dx + va.width * s.m_zoom / 2) ∧
      chart.y_scale = (va.center_y + s.m_dy - va.height * s.m_zoom / 2,
                       va.center_y + s.m_dy + va.height * s.m_zoom / 2) := by
  cases hva : s.m_visible_area with
  | some va =>
    exact ⟨s, _, va, construct_surface_of_area data s va hva, hva,
      fun wa hwa => (Option.some.inj hwa).symm, rfl, rfl⟩
  | none =>
    rw [hva] at hdef
    rcases hdef with h | ⟨hx, hy⟩
    · simp at h
    · obtain ⟨va, hb⟩ := bounding_area_isSome data hx hy
      refine ⟨{ s with m_visible_area := some va }, build_chart data s va, va, ?_, rfl, ?_,
        rfl, rfl⟩
      · simp [construct_surface, hva, hb]
      · intro wa hwa
        simp at hwa

/-- C3 amended, at area centre `(0, 0)`, width 2, height 4, pan `(1, 3)`, zoom `1/2`:
the X range is `(0 + 1 - 2 * (1/2) / 2, 0 + 1 + 2 * (1/2) / 2)`. -/
theorem construct_surface_axis_witness :
    ∃ s' chart va, construct_surface (⟨[-1, 1], [-2, 2], [0, 0], 7⟩ : surface ℚ)
        { m_elevation := 20, m_rotation := 30, m_zoom := 1 / 2, m_dx := 1, m_dy := 3,
          m_visible_area := some ⟨0, 0, 2, 4⟩, m_mouse_position := (0, 0),
          m_mouse_button_pressed := false, m_chart_viewer := none,
          m_x_slice := [], m_y_slice := [] } = some (s', chart) ∧
      s'.m_visible_area = some va ∧
      (∀ wa, some (⟨0, 0, 2, 4⟩ : position_type ℚ) = some wa → wa = va) ∧
      chart.x_scale = (va.center_x + 1 - va.width * (1 / 2) / 2,
                       va.center_x + 1 + va.width * (1 / 2) / 2) ∧
      chart.y_scale = (va.center_y + 3 - va.height * (1 / 2) / 2,
                       va.center_y + 3 + va.height * (1 / 2) / 2) :=
  construct_surface_axis (⟨[-1, 1], [-2, 2], [0, 0], 7⟩ : surface ℚ) _ (Or.inl rfl)

/-- C7: cached-once visible area.  Without a visible area and with non-empty X and Y
arrays, `construct_surface` returns and sets the area to centre
`((minX+maxX)/2, (minY+maxY)/2)`, width `maxX-minX`, height `maxY-minY`, where `minX`,
`maxX`, `minY`, `maxY` are the least and greatest elements of the arrays, so that
centre minus and plus half the extent are exactly `min` and `max`.  With a visible
area `va` present, `construct_surface` returns the widget unchanged for every data, and
`redraw_chart` with a delta, the mouse-move slot, the wheel slot, every list of events
and `make_slice` leave the area equal to `va`. -/
theorem visible_area_cached_once (m : cmath K) (data : surface K) (s : chart_surface K) :
    (s.m_visible_area = none → data.m_x ≠ [] → data.m_y ≠ [] →
      ∃ s' chart, ∃ minX maxX minY maxY : K,
        construct_surface data s = some (s', chart) ∧
        (minX ∈ data.m_x ∧ ∀ x ∈ data.m_x, minX ≤ x) ∧
        (maxX ∈ data.m_x ∧ ∀ x ∈ data.m_x, x ≤ maxX) ∧
        (minY ∈ data.m_y ∧ ∀ y ∈ data.m_y, minY ≤ y) ∧
        (maxY ∈ data.m_y ∧ ∀ y ∈ data.m_y, y ≤ maxY) ∧
        s'.m_visible_area
          = some ⟨(minX + maxX) / 2, (minY + maxY) / 2, maxX - minX, maxY - minY⟩ ∧
        (minX + maxX) / 2 - (maxX - minX) / 2 = minX ∧
        (minX + maxX) / 2 + (maxX - minX) / 2 = maxX ∧
        (minY + maxY) / 2 - (maxY - minY) / 2 = minY ∧
        (minY + maxY) / 2 + (maxY - minY) / 2 = maxY) ∧
    (∀ va, s.m_visible_area = some va →
      (∀ data' : surface K, ∃ chart, construct_surface data' s = some (s, chart)) ∧
      (∀ (data' : surface K) (elevation rotation move_dx move_dy dzoom : K),
        ∃ s', redraw_chart m data' s elevation rotation move_dx move_dy dzoom = some s' ∧
          s'.m_visible_area = some va) ∧
      (∀ (data' : surface K) (left ctrl : Bool) (p : Int × Int),
        ∃ s', on_mouse_move_plot_area m data' s left ctrl p = some s' ∧
          s'.m_visible_area = some va) ∧
      (∀ (data' : surface K) (delta : Int),
        ∃ s', on_mouse_wheel_event_slot m data' s delta = some s' ∧
          s'.m_visible_area = some va) ∧
      (∀ (data' : surface K) (es : List Event),
        ∃ s', run m data' s es = some s' ∧ s'.m_visible_area = some va) ∧
      (∀ (chartTime : Int → Int → Int → K) (data' : surface K) (axis : axis_type)
          (value : List Char) (s' : chart_surface K),
        make_slice chartTime data' s axis value = .ok s' → s'.m_visible_area = some va)) := by
  constructor
  · intro hva hx hy
    obtain ⟨a, c, b, d, ha, hc, hb, hd, h⟩ := bounding_area_spec data hx hy
    have hbox : ∃ va : position_type K,
        va = ⟨(a + c) / 2, (b + d) / 2, c - a, d - b⟩ := ⟨_, rfl⟩
    obtain ⟨va, hvadef⟩ := hbox
    rw [← hvadef] at h
    refine ⟨{ s with m_visible_area := some va }, build_chart data s va, a, c, b, d, ?_,
      ha, hc, hb, hd, by rw [hvadef], by ring, by ring, by ring, by ring⟩
    simp [construct_surface, hva, h]
  · intro va h
    refine ⟨fun data' => ⟨_, construct_surface_of_area data' s va h⟩, ?_, ?_, ?_, ?_, ?_⟩
    · intro data' e r dx dy dz
      obtain ⟨s', hs', -, -, -, -, h5⟩ := redraw_chart_spec m data' s e r dx dy dz
        (Or.inl (by simp [h]))
      exact ⟨s', hs', h5 va h⟩
    · intro data' left ctrl p
      exact handle_keeps_area m data' s va h (.mouse_move left ctrl p)
    · intro data' delta
      exact handle_keeps_area m data' s va h (.wheel delta)
    · intro data' es
      exact run_keeps_area m data' va es s h
    · intro chartTime data' axis value s' hs'
      unfold make_slice at hs'
      cases hc : convert_string chartTime value with
      | error e =>
        rw [hc] at hs'
        cases hs'
        exact h
      | ok v =>
        rw [hc] at hs'
        cases axis <;> simp at hs' <;> subst hs' <;> exact h

/-- C7, at the constructor state over the rationals with data `X = [3, 1, 2]`,
`Y = [5, 9]`: the first `construct_surface` installs a visible area built from
the least and greatest elements. -/
theorem visible_area_cached_once_witness :
    ∃ s' chart, ∃ minX maxX minY maxY : ℚ,
      construct_surface (⟨[3, 1, 2], [5, 9], [0, 0], 7⟩ : surface ℚ)
        (chart_surface.init (0, 0)) = some (s', chart) ∧
      (minX ∈ [(3 : ℚ), 1, 2] ∧ ∀ x ∈ [(3 : ℚ), 1, 2], minX ≤ x) ∧
      (maxX ∈ [(3 : ℚ), 1, 2] ∧ ∀ x ∈ [(3 : ℚ), 1, 2], x ≤ maxX) ∧
      (minY ∈ [(5 : ℚ), 9] ∧ ∀ y ∈ [(5 : ℚ), 9], minY ≤ y) ∧
      (maxY ∈ [(5 : ℚ), 9] ∧ ∀ y ∈ [(5 : ℚ), 9], y ≤ maxY) ∧
      s'.m_visible_area
        = some ⟨(minX + maxX) / 2, (minY + maxY) / 2, maxX - minX, maxY - minY⟩ ∧
      (minX + maxX) / 2 - (maxX - minX) / 2 = minX ∧
      (minX + maxX) / 2 + (maxX - minX) / 2 = maxX ∧
      (minY + maxY) / 2 - (maxY - minY) / 2 = minY ∧
      (minY + maxY) / 2 + (maxY - minY) / 2 = maxY :=
  (visible_area_cached_once (⟨id, id, id, float_round⟩ : cmath ℚ) (⟨[3, 1, 2], [5, 9], [0, 0], 7⟩ : surface ℚ)
    (chart_surface.init (0, 0))).1 rfl (by simp) (by simp)

end view_claims

/-! ## Auxiliary facts about the parser -/

section parse_lemmas
open RegularExpression

theorem re_digit_rmatch (t : List Char) :
    re_digit.rmatch t = true ↔ ∃ c, c ∈ digit_chars ∧ t = [c] := by
  simp only [re_digit, add_rmatch_iff, char_rmatch_iff, digit_chars, List.mem_cons,
    List.mem_singleton, List.not_mem_nil, or_false]
  constructor
  · intro h
    rcases h with ((((((((h | h) | h) | h) | h) | h) | h) | h) | h) | h <;> exact ⟨_, by simp, h⟩
  · rintro ⟨c, hc, rfl⟩
    rcases hc with rfl | rfl | rfl | rfl | rfl | rfl | rfl | rfl | rfl | rfl <;> simp

theorem is_digits_iff (l : List Char) :
    is_digits l = true ↔ l ≠ [] ∧ ∀ c ∈ l, c ∈ digit_chars := by
  cases l with
  | nil => simp [is_digits]
  | cons c cs => simp [is_digits]

/-- The expression `\d+` matches exactly the non-empty texts of digits. -/
theorem re_plus_digit_rmatch (l : List Char) :
    (re_plus re_digit).rmatch l = true ↔ is_digits l = true := by
  rw [is_digits_iff, re_plus, mul_rmatch_iff]
  constructor
  · rintro ⟨t, u, rfl, ht, hu⟩
    obtain ⟨c, hc, rfl⟩ := (re_digit_rmatch t).mp ht
    obtain ⟨S, rfl, hS⟩ := (star_rmatch_iff re_digit u).mp hu
    refine ⟨by simp, ?_⟩
    intro x hx
    rcases List.mem_append.mp hx with hx | hx
    · rw [List.mem_singleton.mp hx]; exact hc
    · obtain ⟨t, ht, hxt⟩ := List.mem_flatten.mp hx
      obtain ⟨c', hc', rfl⟩ := (re_digit_rmatch t).mp (hS t ht).2
      rw [List.mem_singleton.mp hxt]; exact hc'
  · rintro ⟨hne, hall⟩
    cases l with
    | nil => exact absurd rfl hne
    | cons c cs =>
      refine ⟨[c], cs, rfl, (re_digit_rmatch _).mpr ⟨c, hall c (List.mem_cons_self _ _), rfl⟩, ?_⟩
      rw [star_rmatch_iff]
      refine ⟨cs.map (fun x => [x]), ?_, ?_⟩
      · clear hall hne
        induction cs with
        | nil => rfl
        | cons x xs ih => simp [List.flatten] at ih ⊢; exact ih
      · intro t ht
        obtain ⟨x, hx, rfl⟩ := List.mem_map.mp ht
        exact ⟨by simp, (re_digit_rmatch _).mpr ⟨x, hall x (List.mem_cons_of_mem _ hx), rfl⟩⟩

/-- The pattern of line 225 matches exactly the texts `digits/digits/digits`. -/
theorem date_str_rmatch (v : List Char) :
    regex_match v date_str = true ↔
      ∃ d m y, is_digits d = true ∧ is_digits m = true ∧ is_digits y = true ∧
        v = d ++ '/' :: (m ++ '/' :: y) := by
  simp only [regex_match, date_str, mul_rmatch_iff, char_rmatch_iff, re_plus_digit_rmatch]
  constructor
  · rintro ⟨d, r1, rfl, hd, s1, r2, rfl, rfl, m, r3, rfl, hm, s2, y, rfl, rfl, hy⟩
    exact ⟨d, m, y, hd, hm, hy, by simp⟩
  · rintro ⟨d, m, y, hd, hm, hy, rfl⟩
    exact ⟨d, _, rfl, hd, ['/'], _, rfl, rfl, m, _, rfl, hm, ['/'], y, rfl, rfl, hy⟩

/-- The pattern of line 238 matches exactly the texts `digits` and `digits.digits`. -/
theorem double_str_rmatch (v : List Char) :
    regex_match v double_str = true ↔
      ∃ a, is_digits a = true ∧ (v = a ∨ ∃ b, is_digits b = true ∧ v = a ++ '.' :: b) := by
  simp only [regex_match, double_str, re_opt, mul_rmatch_iff, add_rmatch_iff, char_rmatch_iff,
    one_rmatch_iff, re_plus_digit_rmatch]
  constructor
  · rintro ⟨a, r, rfl, ha, h | rfl⟩
    · obtain ⟨s1, b, rfl, rfl, hb⟩ := h
      exact ⟨a, ha, Or.inr ⟨b, hb, by simp⟩⟩
    · exact ⟨a, ha, Or.inl (by simp)⟩
  · rintro ⟨a, ha, rfl | ⟨b, hb, rfl⟩⟩
    · exact ⟨v, [], by simp, ha, Or.inr rfl⟩
    · exact ⟨a, _, rfl, ha, Or.inl ⟨['.'], b, rfl, rfl, hb⟩⟩

/-- A digit is none of the separators `/`, `.`, `,` and none of the signs. -/
theorem digit_ne_sep (c : Char) (h : c ∈ digit_chars) :
    c ≠ '/' ∧ c ≠ '.' ∧ c ≠ ',' ∧ c ≠ '-' ∧ c ≠ '+' := by
  simp only [digit_chars, List.mem_cons, List.mem_singleton, List.not_mem_nil, or_false] at h
  rcases h with rfl | rfl | rfl | rfl | rfl | rfl | rfl | rfl | rfl | rfl <;> decide

theorem before_append (sep : Char) (a r : List Char) (h : ∀ c ∈ a, c ≠ sep) :
    before sep (a ++ sep :: r) = a := by
  induction a with
  | nil => simp [before, List.takeWhile]
  | cons x xs ih =>
    have hx : x ≠ sep := h x (List.mem_cons_self _ _)
    have := ih (fun c hc => h c (List.mem_cons_of_mem _ hc))
    have hx' : (x != sep) = true := by simp [hx]
    simp only [before] at this ⊢
    simp only [List.cons_append, List.takeWhile_cons, hx', if_true, this]

theorem after_append (sep : Char) (a r : List Char) (h : ∀ c ∈ a, c ≠ sep) :
    after sep (a ++ sep :: r) = r := by
  induction a with
  | nil => simp [after, List.dropWhile]
  | cons x xs ih =>
    have hx : x ≠ sep := h x (List.mem_cons_self _ _)
    have := ih (fun c hc => h c (List.mem_cons_of_mem _ hc))
    have hx' : (x != sep) = true := by simp [hx]
    simp only [after] at this ⊢
    simp only [List.cons_append, List.dropWhile_cons, hx', if_true, this]

/-- The groups of a text `d/m/y` are `d`, `m` and `y`. -/
theorem date_groups_eq (d m y : List Char) (hd : is_digits d = true)
    (hm : is_digits m = true) :
    date_groups (d ++ '/' :: (m ++ '/' :: y)) = (d, m, y) := by
  have h1 : ∀ c ∈ d, c ≠ '/' := fun c hc => (digit_ne_sep c (((is_digits_iff d).mp hd).2 c hc)).1
  have h2 : ∀ c ∈ m, c ≠ '/' := fun c hc => (digit_ne_sep c (((is_digits_iff m).mp hm).2 c hc)).1
  simp only [date_groups, before_append '/' d _ h1, after_append '/' d _ h1,
    before_append '/' m _ h2, after_append '/' m _ h2]

/-- On a text of digits `lexical_cast<int>` yields the number, unless it exceeds `INT_MAX`. -/
theorem lexical_cast_int_digits (l : List Char) (h : is_digits l = true) :
    lexical_cast_int l =
      if (decimal_value l : Int) ≤ INT_MAX then .ok (decimal_value l : Int)
      else .error .bad_lexical_cast := by
  obtain ⟨hne, hall⟩ := (is_digits_iff l).mp h
  cases l with
  | nil => exact absurd rfl hne
  | cons c cs =>
    have hc := digit_ne_sep c (hall c (List.mem_cons_self _ _))
    unfold lexical_cast_int
    split
    · rename_i heq
      exact absurd (List.cons.inj heq).1 hc.2.2.2.1
    · rename_i heq
      exact absurd (List.cons.inj heq).1 hc.2.2.2.2
    · simp [h]

/-- Replacing commas leaves a text of digits as it is. -/
theorem replace_commas_digits (a : List Char) (h : is_digits a = true) :
    replace_commas a = a := by
  obtain ⟨-, hall⟩ := (is_digits_iff a).mp h
  unfold replace_commas
  conv_rhs => rw [← List.map_id a]
  apply List.map_congr_left
  intro c hc
  simp [(digit_ne_sep c (hall c hc)).2.2.1]

theorem replace_commas_append (a b : List Char) (c : Char) :
    replace_commas (a ++ c :: b)
      = replace_commas a ++ (if c = ',' then '.' else c) :: replace_commas b := by
  simp [replace_commas]

/-- A text holding `/` matches neither `digits` nor `digits.digits`, also after the
replacement of commas. -/
theorem not_double_of_date (d m y : List Char) :
    regex_match (replace_commas (d ++ '/' :: (m ++ '/' :: y))) double_str = false := by
  rw [Bool.eq_false_iff]
  intro h
  obtain ⟨a, ha, hv⟩ := (double_str_rmatch _).mp h
  have hmem : '/' ∈ replace_commas (d ++ '/' :: (m ++ '/' :: y)) := by
    rw [replace_commas_append]; simp
  obtain ⟨-, hall⟩ := (is_digits_iff a).mp ha
  rcases hv with hv | ⟨b, hb, hv⟩
  · rw [hv] at hmem
    exact (digit_ne_sep _ (hall _ hmem)).1 rfl
  · obtain ⟨-, hallb⟩ := (is_digits_iff b).mp hb
    rw [hv] at hmem
    rcases List.mem_append.mp hmem with hm | hm
    · exact (digit_ne_sep _ (hall _ hm)).1 rfl
    · rcases List.mem_cons.mp hm with hm | hm
      · exact absurd hm (by decide)
      · exact (digit_ne_sep _ (hallb _ hm)).1 rfl

/-- A text matching the date pattern holds `/`; one matching the number pattern after the
replacement of commas does not: no text matches both. -/
theorem not_date_of_double (v : List Char)
    (h : regex_match (replace_commas v) double_str = true) :
    regex_match v date_str = false := by
  rw [Bool.eq_false_iff]
  intro hd
  obtain ⟨d, m, y, -, -, -, rfl⟩ := (date_str_rmatch v).mp hd
  rw [not_double_of_date] at h
  exact Bool.noConfusion h

section parse_values
variable {K : Type} [LinearOrderedField K]

/-- The number denoted by a text `a.b`. -/
theorem decimal_number_frac (a b : List Char) (ha : is_digits a = true) :
    decimal_number (a ++ '.' :: b)
      = (decimal_value a : ℚ) + (decimal_value b : ℚ) / 10 ^ b.length := by
  have h1 : ∀ c ∈ a, c ≠ '.' := fun c hc => (digit_ne_sep c (((is_digits_iff a).mp ha).2 c hc)).2.1
  simp [decimal_number, before_append '.' a b h1, after_append '.' a b h1]

/-- The result of `convert_string` on a text `d/m/y`: the three casts in the order of
lines 228-230, then the date. -/
theorem date_text_result (chartTime : Int → Int → Int → K) (d m y : List Char)
    (hd : is_digits d = true) (hm : is_digits m = true) (hy : is_digits y = true) :
    convert_string chartTime (d ++ '/' :: (m ++ '/' :: y)) =
      if (decimal_value y : Int) ≤ INT_MAX then
        if (decimal_value m : Int) ≤ INT_MAX then
          if (decimal_value d : Int) ≤ INT_MAX then
            .ok (chartTime (wrap_int (2000 + (decimal_value y : Int))) (decimal_value m)
              (decimal_value d))
          else .error .bad_lexical_cast
        else .error .bad_lexical_cast
      else .error .bad_lexical_cast := by
  have hmatch : regex_match (d ++ '/' :: (m ++ '/' :: y)) date_str = true :=
    (date_str_rmatch _).mpr ⟨d, m, y, hd, hm, hy, rfl⟩
  unfold convert_string
  rw [if_pos hmatch, date_groups_eq d m y hd hm]
  simp only [lexical_cast_int_digits y hy, lexical_cast_int_digits m hm,
    lexical_cast_int_digits d hd]
  by_cases h1 : (decimal_value y : Int) ≤ INT_MAX
  · by_cases h2 : (decimal_value m : Int) ≤ INT_MAX
    · by_cases h3 : (decimal_value d : Int) ≤ INT_MAX
      · simp [h1, h2, h3]
      · simp [h1, h2, h3]
    · simp [h1, h2]
  · simp [h1]

/-- The result of `convert_string` on a text that matches the number pattern after the
replacement of commas. -/
theorem convert_string_number_form (chartTime : Int → Int → Int → K) (v : List Char)
    (h : regex_match (replace_commas v) double_str = true) :
    convert_string chartTime v = lexical_cast_double (replace_commas v) := by
  have hd : regex_match v date_str = false := not_date_of_double v h
  unfold convert_string
  simp [hd, h]

theorem wrap_int_small (n : Int) (h0 : 0 ≤ n) (h1 : n ≤ INT_MAX) : wrap_int n = n := by
  unfold wrap_int
  unfold INT_MAX at h1
  omega

/-- A text matching the number pattern is cast to the nearest `double` of the number it
denotes, unless that number rounds beyond the largest `double`. -/
theorem lexical_cast_double_of_match (t : List Char)
    (h : regex_match t double_str = true) :
    lexical_cast_double t =
      (if DBL_OVERFLOW ≤ decimal_number t then .error .bad_lexical_cast
       else .ok ((double_round (decimal_number t) : ℚ) : K) : Except exn K) := by
  obtain ⟨a, ha, rfl | ⟨b, hb, rfl⟩⟩ := (double_str_rmatch t).mp h
  · simp [lexical_cast_double, ha]
  · have h1 : ∀ c ∈ a, c ≠ '.' :=
      fun c hc => (digit_ne_sep c (((is_digits_iff a).mp ha).2 c hc)).2.1
    simp [lexical_cast_double, ha, hb, before_append '.' a b h1, after_append '.' a b h1]

/-- The result of `convert_string` on a text that matches the number pattern after the
replacement of commas. -/
theorem convert_string_number (chartTime : Int → Int → Int → K) (v : List Char)
    (h : regex_match (replace_commas v) double_str = true) :
    convert_string chartTime v =
      if DBL_OVERFLOW ≤ decimal_number (replace_commas v) then .error .bad_lexical_cast
      else .ok ((double_round (decimal_number (replace_commas v)) : ℚ) : K) := by
  rw [convert_string_number_form chartTime v h, lexical_cast_double_of_match _ h]

/-- The replacement of commas in `a,b` and in `a.b`, for digit texts. -/
theorem replace_commas_frac (a b : List Char) (sep : Char) (hsep : sep = ',' ∨ sep = '.')
    (ha : is_digits a = true) (hb : is_digits b = true) :
    replace_commas (a ++ sep :: b) = a ++ '.' :: b := by
  rw [replace_commas_append, replace_commas_digits a ha, replace_commas_digits b hb]
  rcases hsep with rfl | rfl <;> simp

/-- The texts `a,b` and `a.b` match the number pattern after the replacement of commas. -/
theorem frac_matches (a b : List Char) (sep : Char) (hsep : sep = ',' ∨ sep = '.')
    (ha : is_digits a = true) (hb : is_digits b = true) :
    regex_match (replace_commas (a ++ sep :: b)) double_str = true := by
  rw [replace_commas_frac a b sep hsep ha hb]
  exact (double_str_rmatch _).mpr ⟨a, ha, Or.inr ⟨b, hb, rfl⟩⟩

/-- The result of `convert_string` on the text `15,5`. -/
theorem convert_string_fifteen_five (chartTime : Int → Int → Int → K) :
    convert_string chartTime ("15".toList ++ ',' :: "5".toList) = .ok (31 / 2) := by
  have hm := frac_matches "15".toList "5".toList ',' (Or.inl rfl) (by decide) (by decide)
  have hr := replace_commas_frac "15".toList "5".toList ',' (Or.inl rfl) (by decide) (by decide)
  have hn : decimal_number (replace_commas ("15".toList ++ ',' :: "5".toList)) = 31 / 2 := by
    rw [hr, decimal_number_frac _ _ (by decide)]
    have e1 : decimal_value "15".toList = 15 := by decide
    have e2 : decimal_value "5".toList = 5 := by decide
    have e3 : "5".toList.length = 1 := by decide
    rw [e1, e2, e3]
    norm_num
  have hd : double_round (31 / 2 : ℚ) = 31 / 2 := by
    have := binary_round_exact (R := ℚ) 53 (-1074) 31 (-1) (by norm_num) (by norm_num)
      (by norm_num)
    have e : ((31 : Nat) : ℚ) * 2 ^ (-1 : Int) = 31 / 2 := by norm_num
    rw [e] at this
    exact this
  have hov : ¬ DBL_OVERFLOW ≤ (31 / 2 : ℚ) := by
    unfold DBL_OVERFLOW
    norm_num
  rw [convert_string_number chartTime _ hm, hn, if_neg hov, hd]
  norm_num

/-- On a text matching neither pattern `convert_string` throws its own message. -/
theorem convert_string_no_match (chartTime : Int → Int → Int → K) (value : List Char)
    (h1 : regex_match value date_str = false)
    (h2 : regex_match (replace_commas value) double_str = false) :
    convert_string chartTime value
      = .error (.c_string "convert_string: can\x27t make conversion") := by
  unfold convert_string
  simp [h1, h2]

end parse_values

end parse_lemmas

/-! ## The claims about the slice-value parser -/

section parse_claims
variable {K : Type} [LinearOrderedField K]

/-- C4, refuted as stated: the text `1/1/2147483648` matches the date pattern, yet
`convert_string` does not return `chartTime(2000 + 2147483648, 1, 1)` for any
renderer encoding: the cast of the third number to `int` throws. -/
theorem convert_string_date_counterexample :
    regex_match "1/1/2147483648".toList date_str = true ∧
    ¬ ∃ chartTime : Int → Int → Int → ℚ,
      convert_string chartTime "1/1/2147483648".toList
        = .ok (chartTime (2000 + 2147483648) 1 1) := by
  refine ⟨by decide, ?_⟩
  rintro ⟨ct, h⟩
  have e : convert_string ct "1/1/2147483648".toList = .error .bad_lexical_cast := by
    have := date_text_result ct "1".toList "1".toList "2147483648".toList
      (by decide) (by decide) (by decide)
    have hv : (decimal_value "2147483648".toList : Int) = 2147483648 := by decide
    rw [hv] at this
    simpa [INT_MAX] using this
  rw [e] at h
  cases h

/-- C4, amended: a text matches the date pattern exactly when it is `d/m/y` for
non-empty digit texts; on such a text `convert_string` either throws `bad_lexical_cast`
or returns the date encoding of `(2000 + y, m, d)` (year wrapped to `int`), never a
decimal number; when `d`, `m` are at most `INT_MAX` and `y` at most `INT_MAX - 2000` it
returns `chartTime(2000 + y, m, d)`; and `convert_string("15/6/23")` is
`chartTime(2023, 6, 15)`. -/
theorem convert_string_date (chartTime : Int → Int → Int → K) :
    (∀ value : List Char, regex_match value date_str = true →
      ∃ d m y, is_digits d = true ∧ is_digits m = true ∧ is_digits y = true ∧
        value = d ++ '/' :: (m ++ '/' :: y) ∧
        (convert_string chartTime value = .error .bad_lexical_cast ∨
          convert_string chartTime value
            = .ok (chartTime (wrap_int (2000 + (decimal_value y : Int))) (decimal_value m)
                (decimal_value d)))) ∧
    (∀ d m y : List Char, is_digits d = true → is_digits m = true → is_digits y = true →
      (decimal_value d : Int) ≤ INT_MAX → (decimal_value m : Int) ≤ INT_MAX →
      (decimal_value y : Int) ≤ INT_MAX - 2000 →
      regex_match (d ++ '/' :: (m ++ '/' :: y)) date_str = true ∧
      convert_string chartTime (d ++ '/' :: (m ++ '/' :: y))
        = .ok (chartTime (2000 + (decimal_value y : Int)) (decimal_value m)
            (decimal_value d))) ∧
    convert_string chartTime "15/6/23".toList = .ok (chartTime 2023 6 15) := by
  have key : ∀ d m y : List Char, is_digits d = true → is_digits m = true →
      is_digits y = true →
      (decimal_value d : Int) ≤ INT_MAX → (decimal_value m : Int) ≤ INT_MAX →
      (decimal_value y : Int) ≤ INT_MAX - 2000 →
      convert_string chartTime (d ++ '/' :: (m ++ '/' :: y))
        = .ok (chartTime (2000 + (decimal_value y : Int)) (decimal_value m)
            (decimal_value d)) := by
    intro d m y hd hm hy bd bm bY
    have bY' : (decimal_value y : Int) ≤ INT_MAX := by unfold INT_MAX at bY ⊢; omega
    rw [date_text_result chartTime d m y hd hm hy, if_pos bY', if_pos bm, if_pos bd,
      wrap_int_small _ (by omega) (by unfold INT_MAX at bY ⊢; omega)]
  refine ⟨?_, ?_, ?_⟩
  · intro value hmatch
    obtain ⟨d, m, y, hd, hm, hy, rfl⟩ := (date_str_rmatch value).mp hmatch
    refine ⟨d, m, y, hd, hm, hy, rfl, ?_⟩
    rw [date_text_result chartTime d m y hd hm hy]
    by_cases h1 : (decimal_value y : Int) ≤ INT_MAX
    · by_cases h2 : (decimal_value m : Int) ≤ INT_MAX
      · by_cases h3 : (decimal_value d : Int) ≤ INT_MAX
        · right; simp [h1, h2, h3]
        · left; simp [h1, h2, h3]
      · left; simp [h1, h2]
    · left; simp [h1]
  · intro d m y hd hm hy bd bm bY
    exact ⟨(date_str_rmatch _).mpr ⟨d, m, y, hd, hm, hy, rfl⟩, key d m y hd hm hy bd bm bY⟩
  · have h := key "15".toList "6".toList "23".toList (by decide) (by decide) (by decide)
      (by decide) (by decide) (by decide)
    have e1 : decimal_value "15".toList = 15 := by decide
    have e2 : decimal_value "6".toList = 6 := by decide
    have e3 : decimal_value "23".toList = 23 := by decide
    rw [e1, e2, e3] at h
    exact h

/-- C4 amended, at the text `7/12/99` with a stand-in for the renderer encoding. -/
theorem convert_string_date_witness :
    regex_match ("7".toList ++ '/' :: ("12".toList ++ '/' :: "99".toList)) date_str = true ∧
    convert_string (fun y m d => ((y * 10000 + m * 100 + d : Int) : ℚ))
        ("7".toList ++ '/' :: ("12".toList ++ '/' :: "99".toList))
      = .ok ((fun y m d => ((y * 10000 + m * 100 + d : Int) : ℚ))
          (2000 + (decimal_value "99".toList : Int)) (decimal_value "12".toList)
          (decimal_value "7".toList)) :=
  (convert_string_date (fun y m d => ((y * 10000 + m * 100 + d : Int) : ℚ))).2.1
    "7".toList "12".toList "99".toList (by decide) (by decide) (by decide)
    (by decide) (by decide) (by decide)

/-- C6, refuted as stated: the text `99999999999/1/1` matches the date pattern, yet
`convert_string` fails on it, for every renderer encoding. -/
theorem convert_string_fails_counterexample :
    regex_match "99999999999/1/1".toList date_str = true ∧
    ∀ chartTime : Int → Int → Int → ℚ,
      convert_string chartTime "99999999999/1/1".toList = .error .bad_lexical_cast := by
  refine ⟨by decide, ?_⟩
  intro ct
  have := date_text_result ct "99999999999".toList "1".toList "1".toList
    (by decide) (by decide) (by decide)
  have hv : (decimal_value "99999999999".toList : Int) = 99999999999 := by decide
  have h1 : (decimal_value "1".toList : Int) = 1 := by decide
  rw [hv, h1] at this
  simpa [INT_MAX] using this

/-- C6, amended: `convert_string` fails exactly when the text matches neither the date
pattern nor, after the replacement of commas, the number pattern, or when it is a date
text `d/m/y` one of whose three numbers exceeds `INT_MAX`, or when it matches the number
pattern and denotes a number of at least `DBL_OVERFLOW = 2^1024 - 2^970`, which rounds
beyond the largest `double`; on every other text it returns a value.  In particular it
fails on `abc` and on `1/2/3/4`. -/
theorem convert_string_fails_iff (chartTime : Int → Int → Int → K) :
    (∀ value : List Char,
      ((∃ e, convert_string chartTime value = .error e) ↔
        ((regex_match value date_str = false ∧
            regex_match (replace_commas value) double_str = false) ∨
          (∃ d m y, is_digits d = true ∧ is_digits m = true ∧ is_digits y = true ∧
            value = d ++ '/' :: (m ++ '/' :: y) ∧
            (INT_MAX < (decimal_value d : Int) ∨ INT_MAX < (decimal_value m : Int) ∨
              INT_MAX < (decimal_value y : Int))) ∨
          (regex_match (replace_commas value) double_str = true ∧
            DBL_OVERFLOW ≤ decimal_number (replace_commas value)))) ∧
      ((∃ e, convert_string chartTime value = .error e) ∨
        ∃ v, convert_string chartTime value = .ok v)) ∧
    (∃ e, convert_string chartTime "abc".toList = .error e) ∧
    (∃ e, convert_string chartTime "1/2/3/4".toList = .error e) := by
  have hnone := convert_string_no_match chartTime
  refine ⟨?_, ⟨_, hnone _ (by decide) (by decide)⟩, ⟨_, hnone _ (by decide) (by decide)⟩⟩
  intro value
  refine ⟨?_, ?_⟩
  · constructor
    · rintro ⟨e, he⟩
      cases hdate : regex_match value date_str with
      | true =>
        right; left
        obtain ⟨d, m, y, hd, hm, hy, rfl⟩ := (date_str_rmatch value).mp hdate
        refine ⟨d, m, y, hd, hm, hy, rfl, ?_⟩
        rw [date_text_result chartTime d m y hd hm hy] at he
        by_cases h1 : (decimal_value y : Int) ≤ INT_MAX
        · by_cases h2 : (decimal_value m : Int) ≤ INT_MAX
          · by_cases h3 : (decimal_value d : Int) ≤ INT_MAX
            · simp [h1, h2, h3] at he
            · exact Or.inl (not_le.mp h3)
          · exact Or.inr (Or.inl (not_le.mp h2))
        · exact Or.inr (Or.inr (not_le.mp h1))
      | false =>
        cases hnum : regex_match (replace_commas value) double_str with
        | false => exact Or.inl ⟨rfl, rfl⟩
        | true =>
          right; right
          refine ⟨rfl, ?_⟩
          by_contra hov
          rw [convert_string_number chartTime value hnum, if_neg hov] at he
          cases he
    · rintro (⟨h1, h2⟩ | ⟨d, m, y, hd, hm, hy, rfl, hbig⟩ | ⟨hnum, hov⟩)
      · exact ⟨_, hnone value h1 h2⟩
      · refine ⟨.bad_lexical_cast, ?_⟩
        rw [date_text_result chartTime d m y hd hm hy]
        by_cases h1 : (decimal_value y : Int) ≤ INT_MAX
        · by_cases h2 : (decimal_value m : Int) ≤ INT_MAX
          · by_cases h3 : (decimal_value d : Int) ≤ INT_MAX
            · rcases hbig with h | h | h
              · exact absurd h3 (not_le.mpr h)
              · exact absurd h2 (not_le.mpr h)
              · exact absurd h1 (not_le.mpr h)
            · simp [h1, h2, h3]
          · simp [h1, h2]
        · simp [h1]
      · exact ⟨.bad_lexical_cast, by rw [convert_string_number chartTime value hnum, if_pos hov]⟩
  · cases hc : convert_string chartTime value with
    | error e => exact Or.inl ⟨e, rfl⟩
    | ok v => exact Or.inr ⟨v, rfl⟩

/-- C10: when `convert_string` fails on the text, `make_slice` returns normally for
every axis and leaves the widget, hence both slice views, unchanged; when it succeeds
with value `v`, `make_slice(X, text)` appends exactly the request
`{surface id, X, slice_prefs(X), v}` to the X-slice view and nothing to the Y-slice
view, and `make_slice(Y, text)` does the same with `Y` for the Y-slice view. -/
theorem make_slice_forwards (chartTime : Int → Int → Int → K) (data : surface K)
    (s : chart_surface K) (value : List Char) :
    (∀ e, convert_string chartTime value = .error e →
      ∀ axis, make_slice chartTime data s axis value = .ok s) ∧
    (∀ v, convert_string chartTime value = .ok v →
      make_slice chartTime data s .X value
        = .ok { s with m_x_slice := s.m_x_slice ++ [⟨data.uid, .X, ⟨.X⟩, v⟩] } ∧
      make_slice chartTime data s .Y value
        = .ok { s with m_y_slice := s.m_y_slice ++ [⟨data.uid, .Y, ⟨.Y⟩, v⟩] }) := by
  constructor
  · intro e he axis
    simp [make_slice, he]
  · intro v hv
    constructor <;> simp [make_slice, hv]

/-- C10, at the constructor state over the rationals: `make_slice(Y, "abc")` changes
nothing, and `make_slice(X, "15,5")` appends one request to the X-slice view. -/
theorem make_slice_forwards_witness :
    make_slice (fun _ _ _ => (0 : ℚ)) ⟨[0, 1], [0, 1], [0, 0], 7⟩ (chart_surface.init (0, 0))
        .Y "abc".toList = .ok (chart_surface.init (0, 0)) ∧
    make_slice (fun _ _ _ => (0 : ℚ)) ⟨[0, 1], [0, 1], [0, 0], 7⟩ (chart_surface.init (0, 0))
        .X ("15".toList ++ ',' :: "5".toList)
      = .ok { (chart_surface.init (0, 0) : chart_surface ℚ) with
          m_x_slice := (chart_surface.init (0, 0) : chart_surface ℚ).m_x_slice ++
            [⟨7, .X, ⟨.X⟩, 31 / 2⟩] } :=
  ⟨(make_slice_forwards (fun _ _ _ => (0 : ℚ)) ⟨[0, 1], [0, 1], [0, 0], 7⟩
      (chart_surface.init (0, 0)) "abc".toList).1 _
      (convert_string_no_match _ _ (by decide) (by decide)) .Y,
   ((make_slice_forwards (fun _ _ _ => (0 : ℚ)) ⟨[0, 1], [0, 1], [0, 0], 7⟩
      (chart_surface.init (0, 0)) ("15".toList ++ ',' :: "5".toList)).2 _
      (convert_string_fifteen_five _)).1⟩

end parse_claims

end toolkit
